import Mathlib

/-!
Verification of the step-dependency and streaming-orchestration engine of the
long-form article generator (Zustand store `useAppStore`, orchestration
controller in `App.tsx`, and the streaming service layer).

The development shallowly embeds the store's data fields, its actions
(`resetStepsFrom`, citation merging in `appendToResearch` /
`handleSupplementalResearch`), the step-completion policy
(`isStepLogicallyCompleted`), the generic API-call wrappers (`handleApiCall`,
`handleStreamApiCall`), the rerun-confirmation flow (`createRerunHandler` plus
the confirmation modal), and the persistence `partialize` filter.

JavaScript conventions are embedded as follows: a `Record<number, boolean>`
object is an association list `List (Nat × Bool)` (absent keys read as the
falsy `undefined`, i.e. `false`); `String.prototype.trim()`-nonemptiness is
`trimNonempty`; `replace(/\s/g, '')` is `stripWhitespace`; thrown exceptions
are carried as their message strings (the generation SDK throws `Error`
objects); asynchronous stream consumption is a fold over the finite list of
fragments the `for await` loop receives.
-/

set_option autoImplicit false

namespace BSGen

/-- A grounding citation record `{title, uri}` (service layer `extractCitations`). -/
structure Citation where
  title : String
  uri : String
deriving DecidableEq, Repr

/-- An expert-panel character `{name, profession, background}` (`types.ts`). -/
structure Character where
  name : String
  profession : String
  background : String
deriving DecidableEq, Repr

/-- The editable prompt templates (`prompts` field of the store). -/
structure Prompts where
  step1 : String
  step2 : String
  step2Add : String
  step3 : String
  step4 : String
  step4Extend : String
  step5 : String
  step4System : String
  step5System : String
deriving DecidableEq, Repr

/-- Look a key up in a JS object used as a `Record<number, boolean>`;
an absent key is `undefined`, which every use site reads as falsy. -/
def getKey : List (Nat × Bool) → Nat → Bool
  | [], _ => false
  | (k', v') :: rest, k => if k' = k then v' else getKey rest k

/-- JS spread update `{...prev, [k]: v}`: an existing key keeps its position
and gets the new value, a fresh key is appended. -/
def setKey : List (Nat × Bool) → Nat → Bool → List (Nat × Bool)
  | [], k, v => [(k, v)]
  | (k', v') :: rest, k, v =>
    if k' = k then (k, v) :: rest else (k', v') :: setKey rest k v

/-- The data fields of the Zustand store `AppState` (actions are modelled as
functions on this record, mirroring how `set` merges partial updates). -/
structure AppState where
  step : Nat
  loading : List (Nat × Bool)
  preparingStep : Option Nat
  error : Option String
  topic : String
  isTopicConfirmed : Bool
  researchData : String
  supplementalResearchQuery : String
  citations : List Citation
  characters : List Character
  meetingTranscript : String
  finalArticle : String
  prompts : Prompts
deriving DecidableEq, Repr

/-- JS `s.replace(/\s/g, '')`: drop every whitespace character. -/
def stripWhitespace (s : String) : String :=
  ⟨s.data.filter (fun c => !c.isWhitespace)⟩

/-- JS `!!s.trim()`: `s` trims to a non-empty string iff it contains a
non-whitespace character. -/
def trimNonempty (s : String) : Bool :=
  s.data.any (fun c => !c.isWhitespace)

/-- `isStepLogicallyCompleted` (App.tsx lines 289-298): the
StepCompletionPolicy, a pure content-based per-step predicate. -/
def isStepLogicallyCompleted (s : AppState) (stepNumber : Nat) : Bool :=
  match stepNumber with
  | 1 => s.isTopicConfirmed
  | 2 => decide ((stripWhitespace s.researchData).length > 50) || decide (s.citations.length > 0)
  | 3 => decide (s.characters.length > 0)
  | 4 => trimNonempty s.meetingTranscript
  | 5 => trimNonempty s.finalArticle
  | _ => false

/-- The store action `resetStepsFrom` (useAppStore, lines 360-390): the
CascadeInvalidator.  The source builds a partial update from the cascading
guards `fromStep <= 1` … `fromStep <= 5`, deletes the loading keys
`fromStep..5`, sets `error` to `null`, and Zustand's `set` merges that partial
update into the state; the record below assigns exactly the fields of that
partial update under exactly those guards and copies every other field. -/
def resetStepsFrom (fromStep : Nat) (s : AppState) : AppState :=
  { step := s.step
    loading := s.loading.filter (fun p => !(fromStep ≤ p.1 && p.1 ≤ 5))
    preparingStep := s.preparingStep
    error := none
    topic := if fromStep ≤ 1 then "" else s.topic
    isTopicConfirmed := if fromStep ≤ 1 then false else s.isTopicConfirmed
    researchData := if fromStep ≤ 2 then "" else s.researchData
    supplementalResearchQuery := if fromStep ≤ 2 then "" else s.supplementalResearchQuery
    citations := if fromStep ≤ 2 then [] else s.citations
    characters := if fromStep ≤ 3 then [] else s.characters
    meetingTranscript := if fromStep ≤ 4 then "" else s.meetingTranscript
    finalArticle := if fromStep ≤ 5 then "" else s.finalArticle
    prompts := s.prompts }

theorem resetStepsFrom_step (fromStep : Nat) (s : AppState) :
    (resetStepsFrom fromStep s).step = s.step := rfl

theorem resetStepsFrom_prompts (fromStep : Nat) (s : AppState) :
    (resetStepsFrom fromStep s).prompts = s.prompts := rfl

theorem resetStepsFrom_preparingStep (fromStep : Nat) (s : AppState) :
    (resetStepsFrom fromStep s).preparingStep = s.preparingStep := rfl

/-! ### Citation merging (CitationSet)

The deduplicating merge loop appears verbatim at two places: the store action
`appendToResearch` (useAppStore, lines 408-421) and the `onComplete` callback
of `handleSupplementalResearch` (App.tsx, lines 466-476):
`for (const c of incoming) if (!merged.some(mc => mc.uri === c.uri)) merged.push(c)`. -/

/-- `merged.some(mc => mc.uri === u)`: does an entry with uri `u` occur? -/
def hasUri (l : List Citation) (u : String) : Bool :=
  l.any (fun mc => mc.uri == u)

/-- The deduplicating merge loop over the incoming citations. -/
def mergeCitations (existing incoming : List Citation) : List Citation :=
  incoming.foldl (fun acc c => if hasUri acc c.uri then acc else acc ++ [c]) existing

/-- Reference description of a merged citation sequence: each distinct uri
exactly once, in order of first appearance, the first-seen entry (hence its
title) kept on duplication. -/
def dedupKeepFirst : List Citation → List Citation
  | [] => []
  | c :: rest => c :: dedupKeepFirst (rest.filter (fun d => d.uri != c.uri))
termination_by l => l.length
decreasing_by
  simp only [List.length_cons]
  exact Nat.lt_succ_of_le (List.length_filter_le _ _)

theorem hasUri_append (l₁ l₂ : List Citation) (u : String) :
    hasUri (l₁ ++ l₂) u = (hasUri l₁ u || hasUri l₂ u) := by
  simp [hasUri, List.any_append]

/-- Merging with an accumulator appends, after the accumulator, exactly the
first-seen representatives of the incoming uris not already present. -/
theorem mergeCitations_eq_append (incoming : List Citation) :
    ∀ acc : List Citation,
      mergeCitations acc incoming
        = acc ++ dedupKeepFirst (incoming.filter (fun c => !(hasUri acc c.uri))) := by
  induction incoming with
  | nil => intro acc; simp [mergeCitations, dedupKeepFirst]
  | cons c rest ih =>
    intro acc
    by_cases h : hasUri acc c.uri
    · have hstep : mergeCitations acc (c :: rest) = mergeCitations acc rest := by
        simp [mergeCitations, h]
      rw [hstep, ih acc]
      simp [h]
    · have hstep : mergeCitations acc (c :: rest) = mergeCitations (acc ++ [c]) rest := by
        simp [mergeCitations, h]
      rw [hstep, ih (acc ++ [c])]
      have hfilter :
          rest.filter (fun d => !(hasUri (acc ++ [c]) d.uri))
            = (rest.filter (fun d => !(hasUri acc d.uri))).filter
                (fun d => d.uri != c.uri) := by
        rw [List.filter_filter]
        apply List.filter_congr
        intro d _
        simp only [hasUri_append]
        cases hd : hasUri acc d.uri <;>
          simp [hasUri, BEq.comm (a := c.uri) (b := d.uri), bne]
      rw [hfilter]
      have hcons :
          dedupKeepFirst ((c :: rest).filter (fun d => !(hasUri acc d.uri)))
            = c :: dedupKeepFirst
                ((rest.filter (fun d => !(hasUri acc d.uri))).filter
                  (fun d => d.uri != c.uri)) := by
        have : (c :: rest).filter (fun d => !(hasUri acc d.uri))
            = c :: rest.filter (fun d => !(hasUri acc d.uri)) := by
          simp [List.filter_cons, h]
        rw [this, dedupKeepFirst]
      rw [hcons]
      simp

theorem mergeCitations_nil_left (incoming : List Citation) :
    mergeCitations [] incoming = dedupKeepFirst incoming := by
  rw [mergeCitations_eq_append]
  simp [hasUri]

/-- Two sequential merges are one merge of the concatenation (the loop is a
left fold, and a fold over `A ++ B` is the fold over `B` started from the
fold over `A`). -/
theorem mergeCitations_append (x a b : List Citation) :
    mergeCitations (mergeCitations x a) b = mergeCitations x (a ++ b) := by
  simp [mergeCitations, List.foldl_append]

theorem mem_dedupKeepFirst {a : Citation} : ∀ {l : List Citation},
    a ∈ dedupKeepFirst l → a ∈ l := by
  intro l
  induction l using dedupKeepFirst.induct with
  | case1 => simp [dedupKeepFirst]
  | case2 c rest ih =>
    rw [dedupKeepFirst]
    intro h
    rcases List.mem_cons.1 h with h | h
    · exact h ▸ List.mem_cons_self _ _
    · exact List.mem_cons_of_mem _ (List.mem_of_mem_filter (ih h))

/-- The merged sequence holds each distinct uri at most once. -/
theorem dedupKeepFirst_pairwise : ∀ l : List Citation,
    (dedupKeepFirst l).Pairwise (fun a b => a.uri ≠ b.uri) := by
  intro l
  induction l using dedupKeepFirst.induct with
  | case1 => simp [dedupKeepFirst]
  | case2 c rest ih =>
    rw [dedupKeepFirst]
    refine List.pairwise_cons.2 ⟨?_, ih⟩
    intro b hb
    have hbc : b.uri ≠ c.uri := by
      have := List.of_mem_filter (mem_dedupKeepFirst hb)
      simpa [bne_iff_ne] using this
    exact Ne.symm hbc

theorem hasUri_cons (c : Citation) (l : List Citation) (u : String) :
    hasUri (c :: l) u = ((c.uri == u) || hasUri l u) := rfl

/-- Dropping elements that cannot satisfy `q` does not change `any q`. -/
theorem any_filter_of_imp {α : Type} (p q : α → Bool) :
    ∀ l : List α, (∀ x, q x = true → p x = true) →
      (l.filter p).any q = l.any q := by
  intro l h
  induction l with
  | nil => rfl
  | cons x xs ih =>
    by_cases hp : p x = true
    · rw [List.filter_cons_of_pos hp, List.any_cons, List.any_cons, ih]
    · have hq : q x = false := by
        cases hqx : q x
        · rfl
        · exact absurd (h x hqx) hp
      rw [List.filter_cons_of_neg (by simpa using hp), List.any_cons, hq, Bool.false_or, ih]

/-- A uri occurs in the merged sequence iff it occurs in the input. -/
theorem hasUri_dedupKeepFirst (u : String) : ∀ l : List Citation,
    hasUri (dedupKeepFirst l) u = hasUri l u := by
  intro l
  induction l using dedupKeepFirst.induct with
  | case1 => simp [dedupKeepFirst]
  | case2 c rest ih =>
    rw [dedupKeepFirst, hasUri_cons, hasUri_cons, ih]
    by_cases hc : c.uri = u
    · simp [hc]
    · have hfilter : hasUri (rest.filter (fun d => d.uri != c.uri)) u = hasUri rest u := by
        apply any_filter_of_imp
        intro d hd
        have hdu : d.uri = u := by simpa using hd
        simp only [bne_iff_ne, ne_eq, hdu]
        exact fun huc => hc huc.symm
      rw [hfilter]

/-- Dropping elements that cannot satisfy `p` does not change `find? p`. -/
theorem find?_filter_of_imp {α : Type} (p q : α → Bool) :
    ∀ l : List α, (∀ x, p x = true → q x = true) →
      (l.filter q).find? p = l.find? p := by
  intro l h
  induction l with
  | nil => rfl
  | cons x xs ih =>
    by_cases hq : q x = true
    · rw [List.filter_cons_of_pos hq]
      by_cases hp : p x = true
      · rw [List.find?_cons_of_pos _ hp, List.find?_cons_of_pos _ hp]
      · rw [List.find?_cons_of_neg _ (by simpa using hp),
          List.find?_cons_of_neg _ (by simpa using hp)]
        exact ih
    · have hp : ¬ p x = true := fun hpx => hq (h x hpx)
      rw [List.filter_cons_of_neg (by simpa using hq),
        List.find?_cons_of_neg _ (by simpa using hp)]
      exact ih

/-- Each entry of the merged sequence is the first input entry with its uri
(so the first-seen title is the one kept). -/
theorem dedupKeepFirst_find? : ∀ l : List Citation, ∀ a ∈ dedupKeepFirst l,
    l.find? (fun d => d.uri == a.uri) = some a := by
  intro l
  induction l using dedupKeepFirst.induct with
  | case1 => simp [dedupKeepFirst]
  | case2 c rest ih =>
    rw [dedupKeepFirst]
    intro a ha
    rcases List.mem_cons.1 ha with h | h
    · subst h
      simp [List.find?_cons]
    · have hne : a.uri ≠ c.uri := by
        have := List.of_mem_filter (mem_dedupKeepFirst h)
        simpa [bne_iff_ne] using this
      have hhead : (c.uri == a.uri) = false :=
        beq_eq_false_iff_ne.mpr (Ne.symm hne)
      rw [List.find?_cons, hhead]
      simp only [cond_false]
      have hrec := ih a h
      rw [find?_filter_of_imp] at hrec
      · exact hrec
      · intro d hd
        have hda : d.uri = a.uri := by simpa using hd
        simp only [bne_iff_ne, ne_eq, hda]
        exact hne

/-! ### Orchestration: error classification (App.tsx lines 24-30, 364-371)

Thrown exceptions are modelled by their message string: the generation SDK
throws `Error` objects, whose `message` is what `isRateLimitError` and the
`setError` branches inspect. -/

/-- JS `s.includes(pat)`: substring occurrence. -/
def containsSubstr (s pat : String) : Bool :=
  decide (pat.data <:+: s.data)

/-- `isRateLimitError` (App.tsx lines 24-30): the message mentions `429` or
`RESOURCE_EXHAUSTED`. -/
def isRateLimitError (msg : String) : Bool :=
  containsSubstr msg "429" || containsSubstr msg "RESOURCE_EXHAUSTED"

/-- The quota/rate-limit error message (App.tsx line 366). -/
def rateLimitMessage : String :=
  "請求過於頻繁，已超出您的目前配額。請稍候片刻再試一次。"

/-- The generic failure message carrying the step number and the underlying
message (App.tsx line 368). -/
def stepFailureMessage (stepNumber : Nat) (msg : String) : String :=
  "步驟 " ++ toString stepNumber ++ " 失敗: " ++ msg

/-- The catch-branch classification of a thrown error (App.tsx lines 364-371). -/
def classifyStreamError (stepNumber : Nat) (msg : String) : String :=
  if isRateLimitError msg then rateLimitMessage else stepFailureMessage stepNumber msg

/-! ### The five streaming call sites (App.tsx lines 434-569)

Each call site passes `handleStreamApiCall` a step number, an `onStart`
buffer reset/seed, an `onChunk` append into its buffer, and an `onComplete`
citation write. -/

inductive StreamCallSite
  | conductResearch
  | supplementalResearch (query : String)
  | startDiscussion
  | extendDiscussion
  | generateArticle
deriving DecidableEq, Repr

/-- The step number each call site passes to `handleStreamApiCall`. -/
def siteStep : StreamCallSite → Nat
  | .conductResearch => 2
  | .supplementalResearch _ => 2
  | .startDiscussion => 4
  | .extendDiscussion => 4
  | .generateArticle => 5

/-- The `onStart` callback of each call site (clear previous buffer, or seed
it with the supplemental-research heading / extension separator). -/
def siteOnStart : StreamCallSite → AppState → AppState
  | .conductResearch, s => { s with researchData := "", citations := [] }
  | .supplementalResearch q, s =>
    { s with researchData := s.researchData ++ ("\n\n---\n\n## 補充概念：" ++ q ++ "\n\n") }
  | .startDiscussion, s => { s with meetingTranscript := "" }
  | .extendDiscussion, s =>
    { s with meetingTranscript := s.meetingTranscript ++ "\n\n---\n\n### 延伸討論\n\n" }
  | .generateArticle, s => { s with finalArticle := "" }

/-- The `onChunk` callback of each call site: `setX(prev => prev + chunk)`. -/
def siteOnChunk : StreamCallSite → String → AppState → AppState
  | .conductResearch, c, s => { s with researchData := s.researchData ++ c }
  | .supplementalResearch _, c, s => { s with researchData := s.researchData ++ c }
  | .startDiscussion, c, s => { s with meetingTranscript := s.meetingTranscript ++ c }
  | .extendDiscussion, c, s => { s with meetingTranscript := s.meetingTranscript ++ c }
  | .generateArticle, c, s => { s with finalArticle := s.finalArticle ++ c }

/-- The `onComplete` callback of each call site: the research call replaces
the citation set wholesale, the supplemental call merges into it, the
discussion/article calls do nothing. -/
def siteOnComplete : StreamCallSite → List Citation → AppState → AppState
  | .conductResearch, newCitations, s => { s with citations := newCitations }
  | .supplementalResearch _, newCitations, s =>
    { s with citations := mergeCitations s.citations newCitations }
  | .startDiscussion, _, s => s
  | .extendDiscussion, _, s => s
  | .generateArticle, _, s => s

/-- The buffer each call site's `onChunk` appends to. -/
def siteBuffer : StreamCallSite → AppState → String
  | .conductResearch, s => s.researchData
  | .supplementalResearch _, s => s.researchData
  | .startDiscussion, s => s.meetingTranscript
  | .extendDiscussion, s => s.meetingTranscript
  | .generateArticle, s => s.finalArticle

/-- The `for await (const chunk of stream)` loop of `handleStreamApiCall`
(App.tsx lines 350-361): on the first fragment clear the preparing marker,
then hand the fragment to `onChunk`.  Polymorphic in the state so that the
same loop is instantiated for the workflow state and for the traced
aggregator below. -/
def consumeStream {σ : Type} (clearPrep : σ → σ) (onChunk : String → σ → σ) :
    List String → Bool → σ → σ
  | [], _, st => st
  | c :: rest, firstChunk, st =>
    consumeStream clearPrep onChunk rest false
      (onChunk c (if firstChunk then clearPrep st else st))

/-- The streaming loop instantiated at the workflow state: the first fragment
clears `preparingStep`, every fragment is appended to the call site's buffer. -/
def consumeApp (site : StreamCallSite) (chunks : List String) (firstChunk : Bool)
    (s : AppState) : AppState :=
  consumeStream (fun st : AppState => { st with preparingStep := none })
    (siteOnChunk site) chunks firstChunk s

/-- How a streaming request ends: normal exhaustion after yielding `chunks`,
or an exception (carried as its message) thrown after yielding `chunks`. -/
inductive StreamOutcome
  | success (chunks : List String)
  | failure (chunks : List String) (errMsg : String)
deriving DecidableEq, Repr

/-- Concatenation of the fragment texts of a stream. -/
def joinChunks : List String → String
  | [] => ""
  | c :: rest => c ++ joinChunks rest

/-- `handleStreamApiCall` (App.tsx lines 330-376): set `loading[step]=true`,
`preparingStep=step`, `error=null`; run `onStart`; consume the stream (first
fragment clears `preparingStep`, each fragment goes through `onChunk`); on
normal exhaustion run `onComplete(collectedCitations)`, on an exception set
the classified error message; in the `finally` path set `loading[step]=false`
and `preparingStep=null`. -/
def handleStreamApiCall (site : StreamCallSite) (collectedCitations : List Citation)
    (outcome : StreamOutcome) (s : AppState) : AppState :=
  let stepNumber := siteStep site
  let s1 := { s with
    loading := setKey s.loading stepNumber true
    preparingStep := some stepNumber
    error := none }
  let s2 := siteOnStart site s1
  let s3 := match outcome with
    | .success chunks =>
      siteOnComplete site collectedCitations (consumeApp site chunks true s2)
    | .failure chunks errMsg =>
      let sf := consumeApp site chunks true s2
      { sf with error := some (classifyStreamError stepNumber errMsg) }
  { s3 with
    loading := setKey s3.loading stepNumber false
    preparingStep := none }

/-! ### Frame lemmas for the streaming pieces -/

theorem getKey_setKey (k : Nat) (v : Bool) :
    ∀ l : List (Nat × Bool), getKey (setKey l k v) k = v := by
  intro l
  induction l with
  | nil => simp [setKey, getKey]
  | cons p rest ih =>
    obtain ⟨k', v'⟩ := p
    by_cases h : k' = k
    · subst h; simp [setKey, getKey]
    · simp [setKey, h, getKey, ih]

theorem siteOnChunk_loading (site : StreamCallSite) (c : String) (s : AppState) :
    (siteOnChunk site c s).loading = s.loading := by cases site <;> rfl

theorem siteOnChunk_error (site : StreamCallSite) (c : String) (s : AppState) :
    (siteOnChunk site c s).error = s.error := by cases site <;> rfl

theorem siteOnChunk_step (site : StreamCallSite) (c : String) (s : AppState) :
    (siteOnChunk site c s).step = s.step := by cases site <;> rfl

theorem siteOnChunk_preparingStep (site : StreamCallSite) (c : String) (s : AppState) :
    (siteOnChunk site c s).preparingStep = s.preparingStep := by cases site <;> rfl

theorem siteOnStart_loading (site : StreamCallSite) (s : AppState) :
    (siteOnStart site s).loading = s.loading := by cases site <;> rfl

theorem siteOnStart_error (site : StreamCallSite) (s : AppState) :
    (siteOnStart site s).error = s.error := by cases site <;> rfl

theorem siteOnStart_step (site : StreamCallSite) (s : AppState) :
    (siteOnStart site s).step = s.step := by cases site <;> rfl

theorem siteOnStart_preparingStep (site : StreamCallSite) (s : AppState) :
    (siteOnStart site s).preparingStep = s.preparingStep := by cases site <;> rfl

theorem siteOnComplete_loading (site : StreamCallSite) (cits : List Citation) (s : AppState) :
    (siteOnComplete site cits s).loading = s.loading := by cases site <;> rfl

theorem siteOnComplete_error (site : StreamCallSite) (cits : List Citation) (s : AppState) :
    (siteOnComplete site cits s).error = s.error := by cases site <;> rfl

theorem siteOnComplete_step (site : StreamCallSite) (cits : List Citation) (s : AppState) :
    (siteOnComplete site cits s).step = s.step := by cases site <;> rfl

theorem siteBuffer_onChunk (site : StreamCallSite) (c : String) (s : AppState) :
    siteBuffer site (siteOnChunk site c s) = siteBuffer site s ++ c := by
  cases site <;> rfl

theorem siteBuffer_clearPrep (site : StreamCallSite) (s : AppState) :
    siteBuffer site { s with preparingStep := none } = siteBuffer site s := by
  cases site <;> rfl

theorem siteBuffer_setFlags (site : StreamCallSite) (s : AppState)
    (l : List (Nat × Bool)) (p : Option Nat) :
    siteBuffer site { s with loading := l, preparingStep := p } = siteBuffer site s := by
  cases site <;> rfl

theorem siteBuffer_setError (site : StreamCallSite) (s : AppState) (e : Option String) :
    siteBuffer site { s with error := e } = siteBuffer site s := by
  cases site <;> rfl

theorem consumeApp_buffer (site : StreamCallSite) :
    ∀ (chunks : List String) (b : Bool) (s : AppState),
      siteBuffer site (consumeApp site chunks b s) = siteBuffer site s ++ joinChunks chunks := by
  intro chunks
  induction chunks with
  | nil =>
    intro b s
    simp [consumeApp, consumeStream, joinChunks]
  | cons c rest ih =>
    intro b s
    have h1 : consumeApp site (c :: rest) b s
        = consumeApp site rest false
            (siteOnChunk site c (if b then { s with preparingStep := none } else s)) := by
      simp [consumeApp, consumeStream]
    have h2 : siteBuffer site (if b then { s with preparingStep := none } else s)
        = siteBuffer site s := by
      cases b
      · rfl
      · exact siteBuffer_clearPrep site s
    rw [h1, ih, siteBuffer_onChunk, h2, joinChunks, String.append_assoc]

theorem consumeApp_loading (site : StreamCallSite) :
    ∀ (chunks : List String) (b : Bool) (s : AppState),
      (consumeApp site chunks b s).loading = s.loading := by
  intro chunks
  induction chunks with
  | nil => intro b s; simp [consumeApp, consumeStream]
  | cons c rest ih =>
    intro b s
    have h1 : consumeApp site (c :: rest) b s
        = consumeApp site rest false
            (siteOnChunk site c (if b then { s with preparingStep := none } else s)) := by
      simp [consumeApp, consumeStream]
    rw [h1, ih, siteOnChunk_loading]
    cases b <;> rfl

theorem consumeApp_error (site : StreamCallSite) :
    ∀ (chunks : List String) (b : Bool) (s : AppState),
      (consumeApp site chunks b s).error = s.error := by
  intro chunks
  induction chunks with
  | nil => intro b s; simp [consumeApp, consumeStream]
  | cons c rest ih =>
    intro b s
    have h1 : consumeApp site (c :: rest) b s
        = consumeApp site rest false
            (siteOnChunk site c (if b then { s with preparingStep := none } else s)) := by
      simp [consumeApp, consumeStream]
    rw [h1, ih, siteOnChunk_error]
    cases b <;> rfl

theorem consumeApp_step (site : StreamCallSite) :
    ∀ (chunks : List String) (b : Bool) (s : AppState),
      (consumeApp site chunks b s).step = s.step := by
  intro chunks
  induction chunks with
  | nil => intro b s; simp [consumeApp, consumeStream]
  | cons c rest ih =>
    intro b s
    have h1 : consumeApp site (c :: rest) b s
        = consumeApp site rest false
            (siteOnChunk site c (if b then { s with preparingStep := none } else s)) := by
      simp [consumeApp, consumeStream]
    rw [h1, ih, siteOnChunk_step]
    cases b <;> rfl

/-- The quota message and a generic step-failure message are never the same
string: they start with different characters. -/
theorem rateLimitMessage_ne_stepFailure (n : Nat) (msg : String) :
    rateLimitMessage ≠ stepFailureMessage n msg := by
  intro h
  have hd := congrArg (fun t : String => t.data.head?) h
  simp only [rateLimitMessage, stepFailureMessage, String.data_append,
    List.cons_append, List.head?] at hd
  exact absurd hd (by decide)

/-- The buffer content each `onStart` leaves behind (clear, or seed with the
supplemental heading / extension separator). -/
def startBuffer : StreamCallSite → AppState → String
  | .conductResearch, _ => ""
  | .supplementalResearch q, s => s.researchData ++ ("\n\n---\n\n## 補充概念：" ++ q ++ "\n\n")
  | .startDiscussion, _ => ""
  | .extendDiscussion, s => s.meetingTranscript ++ "\n\n---\n\n### 延伸討論\n\n"
  | .generateArticle, _ => ""

theorem siteBuffer_onStart (site : StreamCallSite) (s : AppState)
    (l : List (Nat × Bool)) (p : Option Nat) (e : Option String) :
    siteBuffer site
        (siteOnStart site { s with loading := l, preparingStep := p, error := e })
      = startBuffer site s := by
  cases site <;> rfl

/-- The streaming loop instrumented with the trace of `onChunk` invocations:
the buffer, the preparing marker, and the list of arguments `onChunk` has
been invoked with so far, in order. -/
structure AggState where
  buffer : String
  preparingStep : Option Nat
  onChunkCalls : List String
deriving DecidableEq, Repr

/-- The loop of `handleStreamApiCall` (App.tsx lines 350-361) instantiated at
the traced aggregator: the first fragment clears the preparing marker; each
fragment is appended to the buffer by `onChunk` and recorded in the trace. -/
def aggConsume (chunks : List String) (st : AggState) : AggState :=
  consumeStream (fun st => { st with preparingStep := none })
    (fun c st => { st with buffer := st.buffer ++ c, onChunkCalls := st.onChunkCalls ++ [c] })
    chunks true st

/-! ### The claims -/

/-- C1: for every `fromStep` in `[1,5]` and every workflow state (loading
keys range over the five steps), `resetStepsFrom fromStep` resets the primary
entity of every step `≥ fromStep` to its empty default (for `fromStep ≤ 2`
including the supplemental query and the citation set, for `fromStep ≤ 1`
also the topic text and confirmation flag), leaves the entities of steps
`< fromStep` unchanged, removes every loading key `≥ fromStep`, and clears
the error slot. -/
theorem c1_cascade_invalidation (fromStep : Nat) (s : AppState)
    (h1 : 1 ≤ fromStep) (h5 : fromStep ≤ 5)
    (hkeys : ∀ p ∈ s.loading, 1 ≤ p.1 ∧ p.1 ≤ 5) :
    (fromStep ≤ 1 → (resetStepsFrom fromStep s).topic = ""
      ∧ (resetStepsFrom fromStep s).isTopicConfirmed = false)
    ∧ (fromStep ≤ 2 → (resetStepsFrom fromStep s).researchData = ""
      ∧ (resetStepsFrom fromStep s).supplementalResearchQuery = ""
      ∧ (resetStepsFrom fromStep s).citations = [])
    ∧ (fromStep ≤ 3 → (resetStepsFrom fromStep s).characters = [])
    ∧ (fromStep ≤ 4 → (resetStepsFrom fromStep s).meetingTranscript = "")
    ∧ (resetStepsFrom fromStep s).finalArticle = ""
    ∧ (2 ≤ fromStep → (resetStepsFrom fromStep s).topic = s.topic
      ∧ (resetStepsFrom fromStep s).isTopicConfirmed = s.isTopicConfirmed)
    ∧ (3 ≤ fromStep → (resetStepsFrom fromStep s).researchData = s.researchData
      ∧ (resetStepsFrom fromStep s).supplementalResearchQuery = s.supplementalResearchQuery
      ∧ (resetStepsFrom fromStep s).citations = s.citations)
    ∧ (4 ≤ fromStep → (resetStepsFrom fromStep s).characters = s.characters)
    ∧ (5 ≤ fromStep → (resetStepsFrom fromStep s).meetingTranscript = s.meetingTranscript)
    ∧ (resetStepsFrom fromStep s).loading.all (fun p => decide (p.1 < fromStep)) = true
    ∧ (resetStepsFrom fromStep s).error = none := by
  refine ⟨?_, ?_, ?_, ?_, ?_, ?_, ?_, ?_, ?_, ?_, rfl⟩
  · intro h; simp [resetStepsFrom, h]
  · intro h; simp [resetStepsFrom, h]
  · intro h; simp [resetStepsFrom, h]
  · intro h; simp [resetStepsFrom, h]
  · simp [resetStepsFrom, h5]
  · intro h
    have h' : ¬ fromStep ≤ 1 := by omega
    simp [resetStepsFrom, h']
  · intro h
    have h' : ¬ fromStep ≤ 2 := by omega
    simp [resetStepsFrom, h']
  · intro h
    have h' : ¬ fromStep ≤ 3 := by omega
    simp [resetStepsFrom, h']
  · intro h
    have h' : ¬ fromStep ≤ 4 := by omega
    simp [resetStepsFrom, h']
  · simp only [resetStepsFrom, List.all_eq_true]
    intro p hp
    have hmem := List.mem_of_mem_filter hp
    have hcond := List.of_mem_filter hp
    have hk := hkeys p hmem
    simp only [Bool.not_eq_eq_eq_not, Bool.not_true, Bool.and_eq_false_iff,
      decide_eq_false_iff_not, not_le] at hcond
    simp only [decide_eq_true_eq]
    omega

/-- A fully populated workflow state used to instantiate hypotheses. -/
def emptyPrompts : Prompts :=
  { step1 := "", step2 := "", step2Add := "", step3 := "", step4 := ""
    step4Extend := "", step5 := "", step4System := "", step5System := "" }

/-- A concrete state with all five steps populated and pending loading flags. -/
def populatedState : AppState :=
  { step := 5
    loading := [(2, false), (4, true)]
    preparingStep := none
    error := some "old error"
    topic := "topic"
    isTopicConfirmed := true
    researchData := "research"
    supplementalResearchQuery := "more"
    citations := [⟨"T", "U"⟩]
    characters := [⟨"n", "p", "b"⟩]
    meetingTranscript := "transcript"
    finalArticle := "article"
    prompts := emptyPrompts }

theorem c1_cascade_invalidation_witness :
    (1 ≤ 3 ∧ 3 ≤ 5 ∧ ∀ p ∈ populatedState.loading, 1 ≤ p.1 ∧ p.1 ≤ 5)
    ∧ ((resetStepsFrom 3 populatedState).characters = []
      ∧ (resetStepsFrom 3 populatedState).researchData = populatedState.researchData
      ∧ (resetStepsFrom 3 populatedState).loading.all (fun p => decide (p.1 < 3)) = true
      ∧ (resetStepsFrom 3 populatedState).error = none) :=
  ⟨⟨by decide, by decide, by decide⟩,
    have h := c1_cascade_invalidation 3 populatedState (by decide) (by decide) (by decide)
    ⟨h.2.2.1 (by decide), (h.2.2.2.2.2.2.1 (by decide)).1,
      h.2.2.2.2.2.2.2.2.2.1, h.2.2.2.2.2.2.2.2.2.2⟩⟩

/-- C2: for every streaming call (any step number `p` in the preparing
marker), feeding the fragments `["A","B","C"]` into an initially empty
buffer runs `onChunk` exactly three times, in order `"A"`, `"B"`, `"C"`,
yields the final buffer `"ABC"`, and the preparing marker is already cleared
once the first fragment has been consumed. -/
theorem c2_stream_aggregation (p : Nat) :
    (aggConsume ["A", "B", "C"] ⟨"", some p, []⟩).buffer = "ABC"
    ∧ (aggConsume ["A", "B", "C"] ⟨"", some p, []⟩).onChunkCalls = ["A", "B", "C"]
    ∧ (aggConsume ["A"] ⟨"", some p, []⟩).preparingStep = none
    ∧ (aggConsume ["A", "B", "C"] ⟨"", some p, []⟩).preparingStep = none :=
  ⟨rfl, rfl, rfl, rfl⟩

/-- C3: merging the empty set with `A` and the result with `B` yields each
distinct uri exactly once, in order of first appearance (`A` first, then the
new arrivals of `B`), each represented by the first-seen entry, so the
first-seen title wins. -/
theorem c3_merge_dedup (A B : List Citation) :
    mergeCitations (mergeCitations [] A) B = dedupKeepFirst (A ++ B)
    ∧ (dedupKeepFirst (A ++ B)).Pairwise (fun a b => a.uri ≠ b.uri)
    ∧ (∀ u, hasUri (dedupKeepFirst (A ++ B)) u = hasUri (A ++ B) u)
    ∧ (∀ a ∈ dedupKeepFirst (A ++ B),
        (A ++ B).find? (fun d => d.uri == a.uri) = some a) := by
  refine ⟨?_, dedupKeepFirst_pairwise _, fun u => hasUri_dedupKeepFirst u _,
    dedupKeepFirst_find? _⟩
  rw [mergeCitations_append, mergeCitations_nil_left]

theorem c3_merge_dedup_witness :
    mergeCitations (mergeCitations [] [⟨"t1", "u1"⟩, ⟨"t1x", "u1"⟩])
        [⟨"t2", "u2"⟩, ⟨"t3", "u1"⟩]
      = dedupKeepFirst ([⟨"t1", "u1"⟩, ⟨"t1x", "u1"⟩] ++ [⟨"t2", "u2"⟩, ⟨"t3", "u1"⟩]) :=
  (c3_merge_dedup [⟨"t1", "u1"⟩, ⟨"t1x", "u1"⟩] [⟨"t2", "u2"⟩, ⟨"t3", "u1"⟩]).1

/-- C6: for every streaming call site, a call that throws after emitting any
chunks keeps the buffer content those chunks produced (the `onStart` seed
followed by every chunk, nothing rolled back), leaves `loading[step] = false`
and `preparingStep = null` through the `finally` path, and sets the error
slot to a non-null message: the distinct quota message when the failure
signals 429/RESOURCE_EXHAUSTED, otherwise the message carrying the step
number and the underlying error message. -/
theorem c6_stream_failure (site : StreamCallSite) (s : AppState)
    (chunks : List String) (cits : List Citation) (msg : String) :
    siteBuffer site (handleStreamApiCall site cits (.failure chunks msg) s)
      = startBuffer site s ++ joinChunks chunks
    ∧ getKey (handleStreamApiCall site cits (.failure chunks msg) s).loading (siteStep site)
      = false
    ∧ (handleStreamApiCall site cits (.failure chunks msg) s).preparingStep = none
    ∧ (handleStreamApiCall site cits (.failure chunks msg) s).error
      = some (if isRateLimitError msg then rateLimitMessage
          else stepFailureMessage (siteStep site) msg)
    ∧ (handleStreamApiCall site cits (.failure chunks msg) s).error ≠ none
    ∧ stepFailureMessage (siteStep site) msg
      = "步驟 " ++ toString (siteStep site) ++ " 失敗: " ++ msg
    ∧ rateLimitMessage ≠ stepFailureMessage (siteStep site) msg := by
  refine ⟨?_, ?_, ?_, ?_, ?_, rfl, rateLimitMessage_ne_stepFailure _ _⟩
  · have hF : siteBuffer site (handleStreamApiCall site cits (.failure chunks msg) s)
        = siteBuffer site (consumeApp site chunks true
            (siteOnStart site { s with
              loading := setKey s.loading (siteStep site) true
              preparingStep := some (siteStep site)
              error := none })) := by
      cases site <;> rfl
    rw [hF, consumeApp_buffer, siteBuffer_onStart]
  · simp only [handleStreamApiCall]
    exact getKey_setKey _ _ _
  · rfl
  · rfl
  · simp [handleStreamApiCall]

/-- C10: `resetStepsFrom` never touches the current step pointer, the prompt
set, or the preparing marker. -/
theorem c10_cascade_frame (fromStep : Nat) (s : AppState) :
    (resetStepsFrom fromStep s).step = s.step
    ∧ (resetStepsFrom fromStep s).prompts = s.prompts
    ∧ (resetStepsFrom fromStep s).preparingStep = s.preparingStep :=
  ⟨rfl, rfl, rfl⟩

/-! ### Rerun gating and the confirmation modal (App.tsx lines 276, 378-394,
820-825)

The modal holds the `onConfirm` closure built by `createRerunHandler`; we
record it as the step whose rerun is pending.  Cascade invalidations and API
dispatches performed by an interaction are traced as effects. -/

inductive Effect
  | invalidateFrom (fromStep : Nat)
  | apiCall (stepNumber : Nat)
  | extendCall (existingTranscript : String)
deriving DecidableEq, Repr

/-- `createRerunHandler` (App.tsx lines 378-394): when the step is logically
completed, only open the confirmation modal — no store mutation, no cascade,
no dispatch; otherwise run the action at once (traced as its dispatch). -/
def createRerunHandler (stepToRerun : Nat) (s : AppState) :
    AppState × Option Nat × List Effect :=
  if isStepLogicallyCompleted s stepToRerun then
    (s, some stepToRerun, [])
  else
    (s, none, [Effect.apiCall stepToRerun])

/-- Resolving the confirmation modal (ConfirmationModal buttons wired in
App.tsx lines 820-825): confirm runs the held closure —
`resetStepsFrom(stepToRerun)` then the action — and closes the modal;
cancel only closes the modal. -/
def resolveRerunConfirmation (accept : Bool) (pending : Option Nat) (s : AppState) :
    AppState × Option Nat × List Effect :=
  match pending, accept with
  | some n, true => (resetStepsFrom n s, none, [Effect.invalidateFrom n, Effect.apiCall n])
  | some _, false => (s, none, [])
  | none, _ => (s, none, [])

/-! ### Single-shot calls and step advancement (App.tsx lines 307-328,
398-419) -/

/-- The success path of `handleApiCall` (App.tsx lines 307-328): set the
loading flag, preparing marker and clear the error; apply the result setter
(and the prompt write-back when a non-empty prompt was returned); then the
`finally` path clears the flag and marker. -/
def handleApiCallSuccess (stepNumber : Nat) (apply : AppState → AppState)
    (s : AppState) : AppState :=
  let s1 := { s with
    loading := setKey s.loading stepNumber true
    preparingStep := some stepNumber
    error := none }
  let s2 := apply s1
  { s2 with
    loading := setKey s2.loading stepNumber false
    preparingStep := none }

/-- `handleConfirmAndAdvance` (App.tsx lines 411-419): reject a blank topic
with an error; otherwise confirm the topic, advance to step 2 and clear the
error in one action. -/
def handleConfirmAndAdvance (s : AppState) : AppState :=
  if trimNonempty s.topic = false then
    { s with error := some "請先輸入一個議題。" }
  else
    { s with isTopicConfirmed := true, step := 2, error := none }

/-- The seven generation actions, each carrying the data its success path
writes (the single-shot result / resolved prompt, or the stream fragments
and collected citations). -/
inductive GenAction
  | topicGen (result : String) (prompt : String)
  | conductResearch (chunks : List String) (cits : List Citation)
  | supplementalResearch (query : String) (chunks : List String) (cits : List Citation)
  | panelGen (result : List Character) (prompt : String)
  | startDiscussion (chunks : List String)
  | extendDiscussion (chunks : List String)
  | generateArticle (chunks : List String)

/-- The complete state effect of each generation action's success path, as
wired in App.tsx: `performAITopicGeneration` (398-405), `handleConductResearch`
(434-445), `handleSupplementalResearch` (447-495, including its up-front
`resetStepsFrom(3)` and the success-path query reset), `handleGenerateGroup`
(498-504), `handleStartDiscussion` (524-535), `handleExtendDiscussion`
(537-555, including its `resetStepsFrom(5)`), `handleGenerateArticle`
(558-569). -/
def runGenActionSuccess : GenAction → AppState → AppState
  | .topicGen result prompt, s =>
    handleApiCallSuccess 1
      (fun st =>
        let st1 := { st with topic := result }
        if prompt ≠ "" then { st1 with prompts := { st1.prompts with step1 := prompt } }
        else st1) s
  | .conductResearch chunks cits, s =>
    handleStreamApiCall .conductResearch cits (.success chunks) s
  | .supplementalResearch q chunks cits, s =>
    let s2 := handleStreamApiCall (.supplementalResearch q) cits (.success chunks)
      (resetStepsFrom 3 s)
    { s2 with supplementalResearchQuery := "" }
  | .panelGen result prompt, s =>
    handleApiCallSuccess 3
      (fun st =>
        let st1 := { st with characters := result }
        if prompt ≠ "" then { st1 with prompts := { st1.prompts with step3 := prompt } }
        else st1) s
  | .startDiscussion chunks, s =>
    handleStreamApiCall .startDiscussion [] (.success chunks) s
  | .extendDiscussion chunks, s =>
    handleStreamApiCall .extendDiscussion [] (.success chunks) (resetStepsFrom 5 s)
  | .generateArticle chunks, s =>
    handleStreamApiCall .generateArticle [] (.success chunks) s

theorem handleStreamApiCall_success_step (site : StreamCallSite)
    (cits : List Citation) (chunks : List String) (s : AppState) :
    (handleStreamApiCall site cits (.success chunks) s).step = s.step := by
  have h : (handleStreamApiCall site cits (.success chunks) s).step
      = (siteOnComplete site cits (consumeApp site chunks true
          (siteOnStart site { s with
            loading := setKey s.loading (siteStep site) true
            preparingStep := some (siteStep site)
            error := none }))).step := rfl
  rw [h, siteOnComplete_step, consumeApp_step, siteOnStart_step]

/-- A fresh workflow state (the store's initial values) with a manually
entered topic awaiting confirmation. -/
def draftState : AppState :=
  { step := 1
    loading := []
    preparingStep := none
    error := none
    topic := "X"
    isTopicConfirmed := false
    researchData := ""
    supplementalResearchQuery := ""
    citations := []
    characters := []
    meetingTranscript := ""
    finalArticle := ""
    prompts := emptyPrompts }

/-- `draftState` with a whitespace-only topic. -/
def blankTopicState : AppState := { draftState with topic := "   " }

/-- C5: rerunning a logically-completed step without the user confirming
leaves the workflow state untouched and performs no cascade and no dispatch
(only the confirmation becomes pending); declining keeps the state untouched
with no effects; only confirming runs `resetStepsFrom(step)` followed by the
dispatch. -/
theorem c5_rerun_requires_confirmation (n : Nat) (s : AppState)
    (h : isStepLogicallyCompleted s n = true) :
    createRerunHandler n s = (s, some n, [])
    ∧ resolveRerunConfirmation false (some n) s = (s, none, [])
    ∧ resolveRerunConfirmation true (some n) s
      = (resetStepsFrom n s, none, [Effect.invalidateFrom n, Effect.apiCall n]) := by
  refine ⟨?_, rfl, rfl⟩
  simp [createRerunHandler, h]

theorem c5_rerun_requires_confirmation_witness :
    isStepLogicallyCompleted populatedState 3 = true
    ∧ createRerunHandler 3 populatedState = (populatedState, some 3, [])
    ∧ resolveRerunConfirmation false (some 3) populatedState = (populatedState, none, []) :=
  ⟨rfl, (c5_rerun_requires_confirmation 3 populatedState rfl).1,
    (c5_rerun_requires_confirmation 3 populatedState rfl).2.1⟩

/-- C7: no generation action's success path moves `currentStep`; the sole
advancing action is the manual topic confirmation, which sets the
confirmation flag and `currentStep := 2` in one update (so from step 1 it
advances 1→2), and which, on a topic that is blank after trimming, only sets
an error — no confirmation, no advance. -/
theorem c7_no_auto_advance :
    (∀ (a : GenAction) (s : AppState), (runGenActionSuccess a s).step = s.step)
    ∧ (∀ s : AppState, trimNonempty s.topic = true →
        handleConfirmAndAdvance s
          = { s with isTopicConfirmed := true, step := 2, error := none })
    ∧ (∀ s : AppState, s.step = 1 → trimNonempty s.topic = true →
        (handleConfirmAndAdvance s).isTopicConfirmed = true
        ∧ (handleConfirmAndAdvance s).step = 2)
    ∧ (∀ s : AppState, trimNonempty s.topic = false →
        handleConfirmAndAdvance s = { s with error := some "請先輸入一個議題。" }
        ∧ (handleConfirmAndAdvance s).isTopicConfirmed = s.isTopicConfirmed
        ∧ (handleConfirmAndAdvance s).step = s.step
        ∧ (handleConfirmAndAdvance s).error ≠ none) := by
  refine ⟨?_, ?_, ?_, ?_⟩
  · intro a s
    cases a with
    | topicGen result prompt =>
      simp only [runGenActionSuccess, handleApiCallSuccess]
      split <;> rfl
    | conductResearch chunks cits => exact handleStreamApiCall_success_step _ _ _ _
    | supplementalResearch q chunks cits =>
      simp only [runGenActionSuccess]
      rw [show ({ handleStreamApiCall (.supplementalResearch q) cits (.success chunks)
          (resetStepsFrom 3 s) with supplementalResearchQuery := "" } : AppState).step
        = (handleStreamApiCall (.supplementalResearch q) cits (.success chunks)
            (resetStepsFrom 3 s)).step from rfl]
      rw [handleStreamApiCall_success_step, resetStepsFrom_step]
    | panelGen result prompt =>
      simp only [runGenActionSuccess, handleApiCallSuccess]
      split <;> rfl
    | startDiscussion chunks => exact handleStreamApiCall_success_step _ _ _ _
    | extendDiscussion chunks =>
      simp only [runGenActionSuccess]
      rw [handleStreamApiCall_success_step, resetStepsFrom_step]
    | generateArticle chunks => exact handleStreamApiCall_success_step _ _ _ _
  · intro s h
    simp [handleConfirmAndAdvance, h]
  · intro s h1 htop
    simp [handleConfirmAndAdvance, htop]
  · intro s h
    refine ⟨by simp [handleConfirmAndAdvance, h], ?_, ?_, ?_⟩ <;>
      simp [handleConfirmAndAdvance, h]

theorem c7_no_auto_advance_witness :
    (runGenActionSuccess (.topicGen "t" "p") draftState).step = draftState.step
    ∧ (handleConfirmAndAdvance draftState).isTopicConfirmed = true
    ∧ (handleConfirmAndAdvance draftState).step = 2
    ∧ (handleConfirmAndAdvance blankTopicState).step = blankTopicState.step
    ∧ (handleConfirmAndAdvance blankTopicState).error ≠ none :=
  ⟨c7_no_auto_advance.1 (.topicGen "t" "p") draftState,
    (c7_no_auto_advance.2.2.1 draftState rfl rfl).1,
    (c7_no_auto_advance.2.2.1 draftState rfl rfl).2,
    (c7_no_auto_advance.2.2.2 blankTopicState rfl).2.2.1,
    (c7_no_auto_advance.2.2.2 blankTopicState rfl).2.2.2⟩

/-! ### Per-chunk citations during a research stream (service lines 53-143,
App.tsx lines 330-376)

A raw stream chunk carries a text fragment and zero or more citation
records.  The service generator yields only non-empty texts to the UI loop
and dedup-appends each chunk's citations into a request-local array; the
durable store's citation set is written solely by `onComplete`. -/

structure RawChunk where
  text : String
  citations : List Citation
deriving DecidableEq, Repr

/-- The request-local citation collection (service lines 63-79 / 122-136):
one dedup-append per arriving chunk. -/
def collectChunkCitations (chunks : List RawChunk) : List Citation :=
  chunks.foldl (fun acc ch => mergeCitations acc ch.citations) []

/-- The fragments the UI loop receives: `if (chunk.text) yield chunk.text`. -/
def yieldedTexts (chunks : List RawChunk) : List String :=
  (chunks.filter (fun ch => ch.text != "")).map RawChunk.text

theorem siteOnChunk_citations (site : StreamCallSite) (c : String) (s : AppState) :
    (siteOnChunk site c s).citations = s.citations := by cases site <;> rfl

theorem consumeApp_citations (site : StreamCallSite) :
    ∀ (chunks : List String) (b : Bool) (s : AppState),
      (consumeApp site chunks b s).citations = s.citations := by
  intro chunks
  induction chunks with
  | nil => intro b s; simp [consumeApp, consumeStream]
  | cons c rest ih =>
    intro b s
    have h1 : consumeApp site (c :: rest) b s
        = consumeApp site rest false
            (siteOnChunk site c (if b then { s with preparingStep := none } else s)) := by
      simp [consumeApp, consumeStream]
    rw [h1, ih, siteOnChunk_citations]
    cases b <;> rfl

/-- The durable workflow state while the initial research stream is still in
progress: `handleStreamApiCall` has set the flags and `onStart` has cleared
the research buffer and citation set; the loop has consumed the yielded
texts of `consumed`; `onComplete` has not run. -/
def researchStreamMid (s : AppState) (consumed : List RawChunk) : AppState :=
  consumeApp .conductResearch (yieldedTexts consumed) true
    (siteOnStart .conductResearch { s with
      loading := setKey s.loading 2 true
      preparingStep := some 2
      error := none })

/-- The completed initial research stream: the loop consumed every chunk,
`onComplete` wrote the request-local citation array into the store, and the
`finally` flags ran. -/
def researchStreamRun (s : AppState) (chunks : List RawChunk) : AppState :=
  handleStreamApiCall .conductResearch (collectChunkCitations chunks)
    (.success (yieldedTexts chunks)) s

/-- The durable state while a supplemental research stream is in progress
(same shape; its `onStart` seeds the heading and leaves citations alone). -/
def supplementalStreamMid (q : String) (s : AppState) (consumed : List RawChunk) :
    AppState :=
  consumeApp (.supplementalResearch q) (yieldedTexts consumed) true
    (siteOnStart (.supplementalResearch q) { s with
      loading := setKey s.loading 2 true
      preparingStep := some 2
      error := none })

/-- The completed supplemental research stream. -/
def supplementalStreamRun (q : String) (s : AppState) (chunks : List RawChunk) :
    AppState :=
  handleStreamApiCall (.supplementalResearch q) (collectChunkCitations chunks)
    (.success (yieldedTexts chunks)) s

/-- The store's initial state (persist defaults, prompts abstracted). -/
def initialState : AppState :=
  { step := 1
    loading := []
    preparingStep := none
    error := none
    topic := ""
    isTopicConfirmed := false
    researchData := ""
    supplementalResearchQuery := ""
    citations := []
    characters := []
    meetingTranscript := ""
    finalArticle := ""
    prompts := emptyPrompts }

/-- C4 counterexample: consuming the one-chunk prefix `[{text "A", citation
(T,U)}]` of a research stream leaves the durable citation set empty even
though the prefix carried citation uri `U` — the chunk's citations live only
in the request-local array until completion. -/
theorem c4_counterexample :
    hasUri (researchStreamMid initialState [⟨"A", [⟨"T", "U"⟩]⟩]).citations "U" = false
    ∧ hasUri (collectChunkCitations [⟨"A", [⟨"T", "U"⟩]⟩]) "U" = true := by
  exact ⟨by decide, by decide⟩

/-- The request-local collection equals one dedup-merge of all carried
citations in arrival order. -/
theorem collectChunkCitations_eq (chunks : List RawChunk) :
    collectChunkCitations chunks
      = mergeCitations [] (List.flatten (chunks.map RawChunk.citations)) := by
  rw [collectChunkCitations, mergeCitations, List.foldl_flatten, List.foldl_map]
  rfl

/-- C4 amended: while a research stream (initial or supplemental) is in
progress the durable citation set is not written at all — chunk citations
accumulate only in the request-local array — and the single `onComplete`
write at successful completion gives the durable set every uri carried by
the stream (replacing the set for the initial call, merging into it for the
supplemental call). -/
theorem c4_deferred_citation_merge (s : AppState) (q : String)
    (chunks consumed : List RawChunk) :
    (researchStreamMid s consumed).citations = []
    ∧ (supplementalStreamMid q s consumed).citations = s.citations
    ∧ (researchStreamRun s chunks).citations = collectChunkCitations chunks
    ∧ (supplementalStreamRun q s chunks).citations
      = mergeCitations s.citations (collectChunkCitations chunks)
    ∧ (∀ u, hasUri (collectChunkCitations chunks) u
        = hasUri (List.flatten (chunks.map RawChunk.citations)) u) := by
  refine ⟨?_, ?_, rfl, ?_, ?_⟩
  · rw [researchStreamMid, consumeApp_citations]
    rfl
  · rw [supplementalStreamMid, consumeApp_citations]
    rfl
  · have h : (supplementalStreamRun q s chunks).citations
        = mergeCitations
            (consumeApp (.supplementalResearch q) (yieldedTexts chunks) true
              (siteOnStart (.supplementalResearch q) { s with
                loading := setKey s.loading 2 true
                preparingStep := some 2
                error := none })).citations
            (collectChunkCitations chunks) := rfl
    rw [h, consumeApp_citations]
    rfl
  · intro u
    rw [collectChunkCitations_eq, mergeCitations_nil_left, hasUri_dedupKeepFirst]

/-! ### Persistence (useAppStore persist options, lines 423-436)

`partialize` filters the store object's entries purely by key name, so the
persisted record is determined by the key lists below. -/

/-- The fixed application name keying the durable record (line 424). -/
def storageName : String := "long-form-ai-generator-storage"

/-- The keys of the store object, in initializer order (lines 315-421). -/
def stateObjectKeys : List String :=
  ["step", "setStep", "loading", "setLoading", "preparingStep", "setPreparingStep",
   "error", "setError", "topic", "setTopic", "isTopicConfirmed", "confirmTopic",
   "researchData", "setResearchData", "supplementalResearchQuery",
   "setSupplementalResearchQuery", "citations", "setCitations", "characters",
   "setCharacters", "addCharacter", "deleteCharacter", "meetingTranscript",
   "setMeetingTranscript", "finalArticle", "setFinalArticle", "saveFinalArticleEdit",
   "prompts", "setPrompts", "resetStepsFrom", "resetAll", "appendToResearch"]

/-- The exclusion list inside `partialize` (lines 429-434), verbatim. -/
def partializeExclusions : List String :=
  ["loading", "preparingStep", "error", "setLoading", "setPreparingStep", "setError",
   "setStep", "setTopic", "confirmTopic", "setResearchData",
   "setSupplementalResearchQuery", "setCitations",
   "setCharacters", "addCharacter", "deleteCharacter", "setMeetingTranscript",
   "setFinalArticle", "setPrompts",
   "resetStepsFrom", "resetAll", "appendToResearch", "saveFinalArticleEdit"]

/-- The keys of the persisted record:
`Object.entries(state).filter(([key]) => !exclusions.includes(key))`. -/
def persistedKeys : List String :=
  stateObjectKeys.filter (fun k => !(partializeExclusions.contains k))

/-- The action/setter keys of the store object (every function-valued key). -/
def actionKeys : List String :=
  ["setStep", "setLoading", "setPreparingStep", "setError", "setTopic", "confirmTopic",
   "setResearchData", "setSupplementalResearchQuery", "setCitations", "setCharacters",
   "addCharacter", "deleteCharacter", "setMeetingTranscript", "setFinalArticle",
   "saveFinalArticleEdit", "setPrompts", "resetStepsFrom", "resetAll", "appendToResearch"]

/-- The keys the claim says the durable record contains exactly: the five
step entities, the topic-confirmation flag, the citation set and the
PromptSet. -/
def claimedPersistedKeys : List String :=
  ["topic", "researchData", "characters", "meetingTranscript", "finalArticle",
   "isTopicConfirmed", "citations", "prompts"]

/-- C8 counterexample: the persisted record also contains the current step
pointer and the supplemental-query field, neither of which is among the
claimed keys — it is not "exactly" the claimed set. -/
theorem c8_counterexample :
    persistedKeys.contains "step" = true
    ∧ persistedKeys.contains "supplementalResearchQuery" = true
    ∧ claimedPersistedKeys.contains "step" = false
    ∧ claimedPersistedKeys.contains "supplementalResearchQuery" = false := by
  exact ⟨by decide, by decide, by decide, by decide⟩

/-- C8 amended: the durable record, keyed by the fixed application name,
contains exactly the five step entities, the topic-confirmation flag, the
citation set, the full PromptSet, **and additionally the current step pointer
and the supplemental-query field**; it contains none of the loading flags,
the preparing-step marker, the last error, or any action/setter identity. -/
theorem c8_persisted_layout :
    storageName = "long-form-ai-generator-storage"
    ∧ persistedKeys
      = ["step", "topic", "isTopicConfirmed", "researchData",
         "supplementalResearchQuery", "citations", "characters",
         "meetingTranscript", "finalArticle", "prompts"]
    ∧ (("loading" :: "preparingStep" :: "error" :: actionKeys).all
        (fun k => !(persistedKeys.contains k))) = true := by
  exact ⟨rfl, by decide, by decide⟩

/-! ### Extend-discussion dispatch (App.tsx lines 537-555 and 770-779) -/

/-- `handleExtendDiscussion` (lines 537-555): invoking it only opens a
confirmation modal; the confirm closure runs `resetStepsFrom(5)` and then
dispatches the extend request with the current transcript — the handler
never inspects whether the transcript is empty. -/
def resolveExtendConfirmation (accept : Bool) (s : AppState) : AppState × List Effect :=
  if accept then
    (resetStepsFrom 5 s, [Effect.invalidateFrom 5, Effect.extendCall s.meetingTranscript])
  else
    (s, [])

/-- The extend button (lines 770-779) is rendered only when step 4 is
logically completed, i.e. the trimmed transcript is non-empty. -/
def extendButtonVisible (s : AppState) : Bool :=
  isStepLogicallyCompleted s 4

/-- The rendered extend button is clickable only when step 4 is not locked,
topic / research are non-blank, characters exist, and it is not already
showing its loading state (its `disabled={disabled || isLoading}` wiring). -/
def extendButtonEnabled (s : AppState) : Bool :=
  extendButtonVisible s
    && !(decide (s.step < 4) || !trimNonempty s.topic || !trimNonempty s.researchData
        || decide (s.characters.length = 0)
        || (getKey s.loading 4 && trimNonempty s.meetingTranscript))

/-- `populatedState` with a whitespace-only transcript. -/
def blankTranscriptState : AppState :=
  { populatedState with meetingTranscript := "   " }

/-- C9 counterexample: on a state whose transcript is whitespace-only, the
controller's extend handler, once the user confirms, still dispatches the
extend request (carrying the blank transcript) — it performs no
transcript check immediately before dispatch. -/
theorem c9_counterexample :
    trimNonempty blankTranscriptState.meetingTranscript = false
    ∧ Effect.extendCall "   " ∈ (resolveExtendConfirmation true blankTranscriptState).2 := by
  exact ⟨by decide, by decide⟩

/-- C9 amended: the non-empty-transcript invariant is enforced by the UI
gate, not by a controller check: when the transcript is blank after
trimming, the extend action is not rendered (and a fortiori not clickable),
so through the UI no extend request is issued for such states; the handler
itself dispatches after confirmation without re-checking (see the
counterexample). -/
theorem c9_extend_ui_guard (s : AppState)
    (h : trimNonempty s.meetingTranscript = false) :
    extendButtonVisible s = false ∧ extendButtonEnabled s = false := by
  constructor
  · simp [extendButtonVisible, isStepLogicallyCompleted, h]
  · simp [extendButtonEnabled, extendButtonVisible, isStepLogicallyCompleted, h]

theorem c9_extend_ui_guard_witness :
    trimNonempty blankTranscriptState.meetingTranscript = false
    ∧ extendButtonVisible blankTranscriptState = false
    ∧ extendButtonEnabled blankTranscriptState = false :=
  ⟨by decide, (c9_extend_ui_guard blankTranscriptState (by decide)).1,
    (c9_extend_ui_guard blankTranscriptState (by decide)).2⟩

end BSGen
